import Mathlib

/-!
Verification of the score-aggregation / confidence / diversity-selection core
of the flexible search system (`search_system_v4.py`, class `FlexibleSearchSystem`).

Scores are modelled as rationals (`ℚ`); the external collaborators
(embedding provider, vector index, answer synthesizer) are modelled as
function parameters, with a failing call represented by `Except.error ()`
(the Python code catches any `Exception`).  A separate model with scores in
`Option ℚ` (where `none` stands for IEEE NaN) is used for the claims about
NaN propagation, since every comparison against NaN is false and every
arithmetic operation on NaN yields NaN.
-/

namespace SearchSystem

/-- One namespace's entry of `self.namespace_configs`
(`search_system_v4.py` lines 32-37): weight, `top_k`, description. -/
structure NamespaceConfig where
  weight : ℚ
  top_k : Nat
  description : String
deriving DecidableEq

/-- The concrete configuration built in `__init__` (lines 32-37), in Python
dict insertion order. -/
def namespace_configs : List (String × NamespaceConfig) :=
  [("faq", ⟨12/10, 3, "FAQ"⟩),
   ("dictionary", ⟨1, 2, "용어사전"⟩),
   ("concept", ⟨9/10, 2, "개념설명"⟩),
   ("chunk", ⟨8/10, 2, "교과서"⟩)]

/-- One raw match as returned by `self.index.query` for one namespace:
`match['id']`, `match['score']`, `match['metadata']` (metadata opaque). -/
structure RawMatch where
  id : String
  score : ℚ
  metadata : String
deriving DecidableEq

/-- One aggregated result dict built at lines 73-80 of
`search_system_v4.py`.  The Python key `namespace` is spelled `ns` here
(`namespace` is a Lean keyword) and `namespace_desc` is `ns_desc`. -/
structure SMatch where
  id : String
  score : ℚ
  weighted_score : ℚ
  ns : String
  ns_desc : String
  metadata : String
deriving DecidableEq

/-- The result dict built for one raw match at lines 73-80:
`weighted_score = match['score'] * config['weight']`. -/
def mkResult (ns : String) (cfg : NamespaceConfig) (m : RawMatch) : SMatch :=
  { id := m.id
    score := m.score
    weighted_score := m.score * cfg.weight
    ns := ns
    ns_desc := cfg.description
    metadata := m.metadata }

/-- The pre-sort contents of `all_results` in `search_all_namespaces`
(lines 61-85): namespaces are enumerated in configuration order; a
namespace whose `index.query` call raises is skipped (`except ... continue`);
within a namespace, matches keep the order the similarity search returned
them in.  `query ns k` models `self.index.query(vector, top_k=k, namespace=ns)`. -/
def gatherResults (configs : List (String × NamespaceConfig))
    (query : String → Nat → Except Unit (List RawMatch)) : List SMatch :=
  (configs.map (fun p =>
    match query p.1 p.2.top_k with
    | Except.error _ => []
    | Except.ok ms => ms.map (mkResult p.1 p.2))).flatten

/-- The sort key relation of line 88:
`all_results.sort(key=lambda x: x['weighted_score'], reverse=True)`.
`wGe a b` means `a` may precede `b` in the descending order. -/
def wGe (a b : SMatch) : Prop := b.weighted_score ≤ a.weighted_score

instance : DecidableRel wGe := fun a b =>
  inferInstanceAs (Decidable (b.weighted_score ≤ a.weighted_score))

instance : IsTotal SMatch wGe :=
  ⟨fun a b => (le_total b.weighted_score a.weighted_score).imp id id⟩

instance : IsTrans SMatch wGe :=
  ⟨fun _ _ _ hab hbc => le_trans hbc hab⟩

/-- `search_all_namespaces` (lines 59-90): gather all namespaces' weighted
results, then sort descending by `weighted_score`.  Python's `list.sort` is
a stable sort; it is modelled by the stable `List.insertionSort`. -/
def search_all_namespaces (configs : List (String × NamespaceConfig))
    (query : String → Nat → Except Unit (List RawMatch)) : List SMatch :=
  List.insertionSort wGe (gatherResults configs query)

/-- Population variance of a list of rationals.  NumPy's `np.std(xs)`
(line 111) is the population standard deviation `sqrt (popVariance xs)`;
since both sides of the comparison at line 112 are non-negative,
`np.std(xs) < 0.1` holds iff `popVariance xs < (1/10)^2`, which is how the
comparison is embedded (keeping the model inside `ℚ`). -/
def popVariance (xs : List ℚ) : ℚ :=
  (xs.map (fun x => (x - xs.sum / xs.length) ^ 2)).sum / xs.length

/-- The comparison `np.std([...]) < 0.1` of lines 111-112. -/
def stdLtTenth (xs : List ℚ) : Bool :=
  decide (popVariance xs < (1 / 10) ^ 2)

/-- `calculate_confidence_level` (lines 92-119): level from fixed
thresholds on the best weighted score, score adjusted by +0.05 when the
top-3 weighted scores cluster tightly. -/
def calculate_confidence_level : List SMatch → String × ℚ
  | [] => ("none", 0)
  | best :: rest =>
    let best_score := best.weighted_score
    let confidence :=
      if 8/10 ≤ best_score then "high"
      else if 6/10 ≤ best_score then "medium"
      else if 4/10 ≤ best_score then "low"
      else "very_low"
    let confidence_score :=
      if 2 ≤ (best :: rest).length then
        (if stdLtTenth (((best :: rest).take 3).map (fun r => r.weighted_score))
         then best_score + 5/100
         else best_score)
      else best_score
    (confidence, confidence_score)

/-- Specification-side threshold classification of a best weighted score,
used to state that the level depends only on the (unadjusted) best. -/
def levelOf (best : ℚ) : String :=
  if 8/10 ≤ best then "high"
  else if 6/10 ≤ best then "medium"
  else if 4/10 ≤ best then "low"
  else "very_low"

/-- Demo match with weighted score 0.81 (spec scenario 5). -/
def sc81 : SMatch := ⟨"a", 81/100, 81/100, "faq", "FAQ", ""⟩

/-- Demo match with weighted score 0.80 (spec scenario 5). -/
def sc80 : SMatch := ⟨"b", 80/100, 80/100, "dictionary", "용어사전", ""⟩

/-- Demo match with weighted score 0.79 (spec scenario 5). -/
def sc79 : SMatch := ⟨"c", 79/100, 79/100, "concept", "개념설명", ""⟩

/-- `namespace_count[ns] += 1` on the `defaultdict(int)` of line 127. -/
def bump (counts : String → Nat) (ns : String) : String → Nat :=
  fun n => if n = ns then counts n + 1 else counts n

/-- The `namespace_count` state after line 132 seeded the best result's
namespace (`defaultdict(int)` returns 0 for absent keys). -/
def initCounts (ns : String) : String → Nat :=
  fun n => if n = ns then 1 else 0

/-- The candidate loop of `select_diverse_results` (lines 139-146): walk
the candidates in order, break once `max_results` is reached, and append a
candidate only when its namespace has contributed fewer than 2 selections. -/
def diversityLoop (max_results : Nat) :
    List SMatch → List SMatch → (String → Nat) → List SMatch
  | [], selected, _ => selected
  | c :: cs, selected, counts =>
    if max_results ≤ selected.length then selected
    else if counts c.ns < 2 then
      diversityLoop max_results cs (selected ++ [c]) (bump counts c.ns)
    else diversityLoop max_results cs selected counts

/-- The diversity-pass portion of `select_diverse_results` (lines 123-146):
`selected` just before the backfill step.  The best result is included
unconditionally (lines 129-132); candidates are the remaining results with
weighted score at least 80% of the best (lines 134-136). -/
def diversityPass (results : List SMatch) (max_results : Nat) : List SMatch :=
  match results with
  | [] => []
  | best :: rest =>
    let threshold := best.weighted_score * (8/10)
    let candidates := rest.filter (fun r => decide (threshold ≤ r.weighted_score))
    diversityLoop max_results candidates [best] (initCounts best.ns)

/-- `select_diverse_results` (lines 121-153): diversity pass, then, when the
selection is still short of `max_results`, backfill in score order from the
results not yet selected (`r not in selected` is Python value equality on
the dicts, lines 149-151), and finally truncate to `max_results`. -/
def select_diverse_results (results : List SMatch) (max_results : Nat := 3) :
    List SMatch :=
  match results with
  | [] => []
  | _ :: _ =>
    let selected := diversityPass results max_results
    let selected :=
      if selected.length < max_results then
        selected ++ ((results.filter (fun r => decide (r ∉ selected))).take
          (max_results - selected.length))
      else selected
    selected.take max_results

/-- A Python float that may be NaN: `none` stands for NaN, `some q` for a
finite value.  Used to check the NaN-handling claims against the code:
arithmetic on NaN yields NaN, and every ordered comparison involving NaN
is false. -/
abbrev FScore := Option ℚ

/-- IEEE multiplication by a finite weight: NaN * w = NaN. -/
def fMul (x : FScore) (w : ℚ) : FScore := x.map (fun q => q * w)

/-- IEEE addition of a finite constant: NaN + c = NaN. -/
def fAdd (x : FScore) (c : ℚ) : FScore := x.map (fun q => q + c)

/-- IEEE `t <= x` where `x` may be NaN: false when `x` is NaN. -/
def fGe (x : FScore) (t : ℚ) : Bool :=
  match x with
  | none => false
  | some q => decide (t ≤ q)

/-- A raw match whose `score` may be NaN. -/
structure NRawMatch where
  id : String
  score : FScore
  metadata : String

/-- A result dict (lines 73-80) whose scores may be NaN. -/
structure NMatch where
  id : String
  score : FScore
  weighted_score : FScore
  ns : String
  ns_desc : String
  metadata : String

/-- The loop body of lines 73-80 on a possibly-NaN score:
`weighted_score = score * weight` propagates NaN. -/
def mkResultN (ns : String) (cfg : NamespaceConfig) (m : NRawMatch) : NMatch :=
  { id := m.id
    score := m.score
    weighted_score := fMul m.score cfg.weight
    ns := ns
    ns_desc := cfg.description
    metadata := m.metadata }

/-- A raw match carrying a NaN similarity score. -/
def nanRaw : NRawMatch := ⟨"doc1", none, ""⟩

/-- `np.std([...]) < 0.1` (lines 111-112) on possibly-NaN inputs: when any
input is NaN, `np.std` returns NaN and `NaN < 0.1` is false; otherwise as
`stdLtTenth`. -/
def fStdLtTenth (xs : List FScore) : Bool :=
  if xs.any (fun x => x.isNone) then false
  else stdLtTenth (xs.filterMap (fun x => x))

/-- `calculate_confidence_level` (lines 92-119) under IEEE semantics for
possibly-NaN scores: every `best_score >= c` test is false for NaN and the
`+ 0.05` adjustment propagates NaN. -/
def calcConfidenceN (results : List NMatch) : String × FScore :=
  match results with
  | [] => ("none", some 0)
  | best :: rest =>
    let best_score := best.weighted_score
    let confidence :=
      if fGe best_score (8/10) then "high"
      else if fGe best_score (6/10) then "medium"
      else if fGe best_score (4/10) then "low"
      else "very_low"
    let confidence_score :=
      if 2 ≤ (best :: rest).length then
        (if fStdLtTenth (((best :: rest).take 3).map (fun r => r.weighted_score))
         then fAdd best_score (5/100)
         else best_score)
      else best_score
    (confidence, confidence_score)

/-- The response dict of `search_and_answer` (lines 306-336).
`execution_time` (wall-clock) is omitted from the model; the not-found
dict carries no `sources` key, hence `sources` is optional. -/
structure SearchResponse where
  query : String
  answer : String
  confidence : String
  confidence_score : ℚ
  results : List SMatch
  sources : Option (List String)

/-- The fixed "no information found" response of lines 306-314. -/
def notFoundResponse (query : String) : SearchResponse :=
  { query := query
    answer := "관련 정보를 찾을 수 없어요. 다른 질문을 해보시거나 선생님께 여쭤보세요."
    confidence := "none"
    confidence_score := 0
    results := []
    sources := none }

/-- `search_and_answer` (lines 290-336).  `embed` models
`create_query_embedding`, which re-raises its exception (lines 42-57) and
is called without a surrounding `try` (line 301); `searchIdx` models
`self.index.query`; `synthesize` models `generate_composite_answer`, which
catches its own exceptions and always returns a string (lines 207-262).
An uncaught exception is `Except.error ()`. -/
def search_and_answer (embed : String → Except Unit (List ℚ))
    (searchIdx : List ℚ → String → Nat → Except Unit (List RawMatch))
    (synthesize : String → List SMatch → String → String)
    (configs : List (String × NamespaceConfig)) (query : String) :
    Except Unit SearchResponse :=
  match embed query with
  | Except.error e => Except.error e
  | Except.ok emb =>
    let all_results := search_all_namespaces configs (searchIdx emb)
    if all_results.isEmpty then Except.ok (notFoundResponse query)
    else
      let cc := calculate_confidence_level all_results
      let selected := select_diverse_results all_results 3
      Except.ok
        { query := query
          answer := synthesize query selected cc.1
          confidence := cc.1
          confidence_score := cc.2
          results := selected
          sources := some (selected.map (fun r => r.ns_desc)) }

lemma filter_orderedInsert (q : ℚ) (x : SMatch) :
    ∀ l : List SMatch,
      (List.orderedInsert wGe x l).filter (fun m => decide (m.weighted_score = q))
        = if x.weighted_score = q
          then x :: l.filter (fun m => decide (m.weighted_score = q))
          else l.filter (fun m => decide (m.weighted_score = q))
  | [] => by
    by_cases h : x.weighted_score = q <;> simp [h]
  | y :: ys => by
    by_cases hr : wGe x y
    · by_cases hx : x.weighted_score = q <;>
        simp [List.orderedInsert, if_pos hr, List.filter_cons, hx]
    · have hxy : ¬ (y.weighted_score ≤ x.weighted_score) := hr
      by_cases hx : x.weighted_score = q
      · have hy : ¬ (y.weighted_score = q) := by
          intro hyq
          exact hxy (le_of_eq (hyq.trans hx.symm))
        simp [List.orderedInsert, if_neg hr, List.filter_cons, hy, hx,
          filter_orderedInsert q x ys]
      · by_cases hy : y.weighted_score = q <;>
          simp [List.orderedInsert, if_neg hr, List.filter_cons, hy, hx,
            filter_orderedInsert q x ys]

lemma filter_insertionSort (q : ℚ) :
    ∀ l : List SMatch,
      (List.insertionSort wGe l).filter (fun m => decide (m.weighted_score = q))
        = l.filter (fun m => decide (m.weighted_score = q))
  | [] => rfl
  | x :: xs => by
    by_cases hx : x.weighted_score = q <;>
      simp [List.insertionSort, filter_orderedInsert q x,
        filter_insertionSort q xs, hx, List.filter_cons]

lemma levelOf_eq_high (b : ℚ) : levelOf b = "high" ↔ 8/10 ≤ b := by
  unfold levelOf
  split_ifs with h1 h2 h3
  · exact iff_of_true rfl h1
  · exact iff_of_false (by decide) h1
  · exact iff_of_false (by decide) h1
  · exact iff_of_false (by decide) h1

lemma levelOf_eq_medium (b : ℚ) :
    levelOf b = "medium" ↔ 6/10 ≤ b ∧ b < 8/10 := by
  unfold levelOf
  split_ifs with h1 h2 h3
  · refine iff_of_false (by decide) ?_
    rintro ⟨-, h⟩; exact absurd h1 (not_le.2 h)
  · exact iff_of_true rfl ⟨h2, not_le.1 h1⟩
  · refine iff_of_false (by decide) ?_
    rintro ⟨h, -⟩; exact h2 h
  · refine iff_of_false (by decide) ?_
    rintro ⟨h, -⟩; exact h2 h

lemma levelOf_eq_low (b : ℚ) :
    levelOf b = "low" ↔ 4/10 ≤ b ∧ b < 6/10 := by
  unfold levelOf
  split_ifs with h1 h2 h3
  · refine iff_of_false (by decide) ?_
    rintro ⟨-, h⟩; exact absurd h1 (not_le.2 (h.trans (by norm_num)))
  · refine iff_of_false (by decide) ?_
    rintro ⟨-, h⟩; exact absurd h2 (not_le.2 h)
  · exact iff_of_true rfl ⟨h3, not_le.1 h2⟩
  · refine iff_of_false (by decide) ?_
    rintro ⟨h, -⟩; exact h3 h

lemma levelOf_eq_very_low (b : ℚ) :
    levelOf b = "very_low" ↔ b < 4/10 := by
  unfold levelOf
  split_ifs with h1 h2 h3
  · exact iff_of_false (by decide) (not_lt.2 (le_trans (by norm_num) h1))
  · exact iff_of_false (by decide) (not_lt.2 (le_trans (by norm_num) h2))
  · exact iff_of_false (by decide) (not_lt.2 h3)
  · exact iff_of_true rfl (not_le.1 h3)

lemma fst_calculate_confidence_level (m : SMatch) (rest : List SMatch) :
    (calculate_confidence_level (m :: rest)).1 = levelOf m.weighted_score := rfl

lemma snd_calculate_confidence_level (m : SMatch) (rest : List SMatch) :
    (calculate_confidence_level (m :: rest)).2
      = if 2 ≤ (m :: rest).length then
          (if stdLtTenth (((m :: rest).take 3).map (fun r => r.weighted_score))
           then m.weighted_score + 5/100
           else m.weighted_score)
        else m.weighted_score := rfl

lemma diversityPass_cons_def (b : SMatch) (rest : List SMatch) (k : Nat) :
    diversityPass (b :: rest) k
      = diversityLoop k
          (rest.filter (fun r => decide (b.weighted_score * (8/10) ≤ r.weighted_score)))
          [b] (initCounts b.ns) := rfl

lemma select_cons_def (b : SMatch) (rest : List SMatch) (k : Nat) :
    select_diverse_results (b :: rest) k
      = (if (diversityPass (b :: rest) k).length < k then
           diversityPass (b :: rest) k
             ++ (((b :: rest).filter
                  (fun r => decide (r ∉ diversityPass (b :: rest) k))).take
                    (k - (diversityPass (b :: rest) k).length))
         else diversityPass (b :: rest) k).take k := rfl

lemma diversityLoop_eq_append (k : Nat) :
    ∀ (cs sel : List SMatch) (counts : String → Nat),
      ∃ t, diversityLoop k cs sel counts = sel ++ t ∧ t.Sublist cs
  | [], sel, _counts => ⟨[], by simp [diversityLoop], List.nil_sublist _⟩
  | c :: cs, sel, counts => by
    unfold diversityLoop
    by_cases hk : k ≤ sel.length
    · exact ⟨[], by simp [if_pos hk], List.nil_sublist _⟩
    · rw [if_neg hk]
      by_cases hc : counts c.ns < 2
      · rw [if_pos hc]
        obtain ⟨t, ht, hsub⟩ :=
          diversityLoop_eq_append k cs (sel ++ [c]) (bump counts c.ns)
        exact ⟨c :: t, ht.trans (by simp), hsub.cons₂ c⟩
      · rw [if_neg hc]
        obtain ⟨t, ht, hsub⟩ := diversityLoop_eq_append k cs sel counts
        exact ⟨t, ht, hsub.cons c⟩

lemma diversityPass_cons (b : SMatch) (rest : List SMatch) (k : Nat) :
    ∃ t, diversityPass (b :: rest) k = b :: t ∧ t.Sublist rest := by
  obtain ⟨t, ht, hsub⟩ := diversityLoop_eq_append k
    (rest.filter (fun r => decide (b.weighted_score * (8/10) ≤ r.weighted_score)))
    [b] (initCounts b.ns)
  exact ⟨t, (diversityPass_cons_def b rest k).trans ht,
    hsub.trans (List.filter_sublist _)⟩

lemma length_filter_notMem :
    ∀ {s l : List SMatch}, s.Sublist l → l.Nodup →
      (l.filter (fun r => decide (r ∉ s))).length = l.length - s.length := by
  intro s l hsub
  induction hsub with
  | slnil => intro _; simp
  | @cons s l a hs ih =>
    intro hnd
    have hal : a ∉ l := (List.nodup_cons.1 hnd).1
    have has : a ∉ s := fun h => hal (hs.subset h)
    have hlen := hs.length_le
    rw [List.filter_cons, decide_eq_true has, if_pos rfl]
    simp only [List.length_cons]
    rw [ih (List.nodup_cons.1 hnd).2]
    omega
  | @cons₂ s l a hs ih =>
    intro hnd
    have hal : a ∉ l := (List.nodup_cons.1 hnd).1
    have hlen := hs.length_le
    rw [List.filter_cons]
    have hhead : decide (a ∉ a :: s) = false :=
      decide_eq_false (fun h => h (List.mem_cons_self a s))
    rw [hhead]
    have hcong : l.filter (fun r => decide (r ∉ a :: s))
        = l.filter (fun r => decide (r ∉ s)) := by
      apply List.filter_congr
      intro x hx
      have hxa : x ≠ a := fun he => hal (he ▸ hx)
      simp [List.mem_cons, hxa]
    simp only [Bool.false_eq_true, if_false]
    rw [hcong, ih (List.nodup_cons.1 hnd).2]
    simp only [List.length_cons]
    omega

lemma diversityLoop_cap (k : Nat) :
    ∀ (cs sel : List SMatch) (counts : String → Nat),
      (∀ n, (sel.filter (fun m => decide (m.ns = n))).length = counts n) →
      (∀ n, counts n ≤ 2) →
      ∀ n, ((diversityLoop k cs sel counts).filter
              (fun m => decide (m.ns = n))).length ≤ 2
  | [], sel, counts, hacc, hb, n => by
    unfold diversityLoop
    rw [hacc n]
    exact hb n
  | c :: cs, sel, counts, hacc, hb, n => by
    unfold diversityLoop
    by_cases hk : k ≤ sel.length
    · rw [if_pos hk, hacc n]; exact hb n
    · rw [if_neg hk]
      by_cases hc : counts c.ns < 2
      · rw [if_pos hc]
        refine diversityLoop_cap k cs (sel ++ [c]) (bump counts c.ns) ?_ ?_ n
        · intro m
          rw [List.filter_append, List.length_append, hacc m]
          unfold bump
          by_cases hm : m = c.ns
          · rw [if_pos hm]
            have hd : decide (c.ns = m) = true := decide_eq_true hm.symm
            simp [List.filter_cons, hd]
          · rw [if_neg hm]
            have hd : decide (c.ns = m) = false :=
              decide_eq_false (fun h => hm h.symm)
            simp [List.filter_cons, hd]
        · intro m
          unfold bump
          by_cases hm : m = c.ns
          · rw [if_pos hm, hm]; omega
          · rw [if_neg hm]; exact hb m
      · rw [if_neg hc]
        exact diversityLoop_cap k cs sel counts hacc hb n

end SearchSystem

/-- Claim C1: for every input (raw matches per partition with their
configured weights), the ranked result set produced by
`search_all_namespaces` is sorted in non-increasing order of
`weighted_score`: every adjacent pair satisfies
`weighted_score[i] ≥ weighted_score[i+1]`. -/
theorem SearchSystem.search_all_namespaces_sorted_desc
    (configs : List (String × SearchSystem.NamespaceConfig))
    (query : String → Nat → Except Unit (List SearchSystem.RawMatch)) :
    List.Chain' (fun a b => b.weighted_score ≤ a.weighted_score)
      (SearchSystem.search_all_namespaces configs query) :=
  List.Pairwise.chain'
    (List.sorted_insertionSort SearchSystem.wGe
      (SearchSystem.gatherResults configs query))

/-- Claim C2: aggregation breaks ties stably.  For every weighted score
value `q`, the subsequence of the sorted output consisting of the matches
with `weighted_score = q` equals the corresponding subsequence of the
pre-sort list `gatherResults`, which enumerates partitions in configuration
order and, within a partition, keeps the order the similarity search
returned.  Hence equal-score matches retain partition-enumeration order and
within-partition order. -/
theorem SearchSystem.search_all_namespaces_stable
    (configs : List (String × SearchSystem.NamespaceConfig))
    (query : String → Nat → Except Unit (List SearchSystem.RawMatch))
    (q : ℚ) :
    (SearchSystem.search_all_namespaces configs query).filter
        (fun m => decide (m.weighted_score = q))
      = (SearchSystem.gatherResults configs query).filter
        (fun m => decide (m.weighted_score = q)) :=
  SearchSystem.filter_insertionSort q (SearchSystem.gatherResults configs query)

/-- Claim C3: the confidence classifier returns level `none` with score 0.0
on an empty ranked result set; on a non-empty set it returns `high` when the
best weighted score is at least 0.8, `medium` on [0.6, 0.8), `low` on
[0.4, 0.6) and `very_low` below 0.4 — determined by the *weighted* best
score (the raw `score` field of the head match is unconstrained here). -/
theorem SearchSystem.calculate_confidence_level_thresholds :
    SearchSystem.calculate_confidence_level [] = ("none", 0)
    ∧ ∀ (m : SearchSystem.SMatch) (rest : List SearchSystem.SMatch),
        ((SearchSystem.calculate_confidence_level (m :: rest)).1 = "high"
            ↔ 8/10 ≤ m.weighted_score)
        ∧ ((SearchSystem.calculate_confidence_level (m :: rest)).1 = "medium"
            ↔ 6/10 ≤ m.weighted_score ∧ m.weighted_score < 8/10)
        ∧ ((SearchSystem.calculate_confidence_level (m :: rest)).1 = "low"
            ↔ 4/10 ≤ m.weighted_score ∧ m.weighted_score < 6/10)
        ∧ ((SearchSystem.calculate_confidence_level (m :: rest)).1 = "very_low"
            ↔ m.weighted_score < 4/10) := by
  refine ⟨rfl, fun m rest => ?_⟩
  rw [SearchSystem.fst_calculate_confidence_level]
  exact ⟨SearchSystem.levelOf_eq_high _, SearchSystem.levelOf_eq_medium _,
    SearchSystem.levelOf_eq_low _, SearchSystem.levelOf_eq_very_low _⟩

/-- Claim C4: with at least 2 results the confidence score is
`best + 0.05` exactly when the population standard deviation of the top-3
weighted scores is below 0.1 (equivalently, the population variance is
below 0.01), and `best` otherwise; with a single result the score is
`best`; and in every case the level is `levelOf best`, computed from the
unadjusted best, so the +0.05 bonus never changes the level. -/
theorem SearchSystem.confidence_score_adjustment
    (m : SearchSystem.SMatch) (rest : List SearchSystem.SMatch) :
    (2 ≤ (m :: rest).length →
        (SearchSystem.calculate_confidence_level (m :: rest)).2
          = if SearchSystem.popVariance
                (((m :: rest).take 3).map (fun r => r.weighted_score)) < (1/10)^2
            then m.weighted_score + 5/100
            else m.weighted_score)
    ∧ ((m :: rest).length = 1 →
        (SearchSystem.calculate_confidence_level (m :: rest)).2 = m.weighted_score)
    ∧ (SearchSystem.calculate_confidence_level (m :: rest)).1
        = SearchSystem.levelOf m.weighted_score := by
  refine ⟨fun h2 => ?_, fun h1 => ?_, SearchSystem.fst_calculate_confidence_level m rest⟩
  · rw [SearchSystem.snd_calculate_confidence_level, if_pos h2]
    simp only [SearchSystem.stdLtTenth, decide_eq_true_eq]
  · rw [SearchSystem.snd_calculate_confidence_level, if_neg (by rw [h1]; omega)]

/-- Witness for C4 at spec scenario 5: top weighted scores
[0.81, 0.80, 0.79] cluster tightly, so the score is 0.81 + 0.05 and the
level stays `high`. -/
theorem SearchSystem.confidence_score_adjustment_witness :
    (SearchSystem.calculate_confidence_level
        [SearchSystem.sc81, SearchSystem.sc80, SearchSystem.sc79]).2 = 81/100 + 5/100
    ∧ (SearchSystem.calculate_confidence_level
        [SearchSystem.sc81, SearchSystem.sc80, SearchSystem.sc79]).1 = "high" := by
  have h := SearchSystem.confidence_score_adjustment SearchSystem.sc81
    [SearchSystem.sc80, SearchSystem.sc79]
  refine ⟨?_, ?_⟩
  · rw [h.1 (by norm_num),
      if_pos (by norm_num [SearchSystem.popVariance,
        SearchSystem.sc81, SearchSystem.sc80, SearchSystem.sc79])]
    rfl
  · rw [h.2.2, SearchSystem.levelOf_eq_high]
    norm_num [SearchSystem.sc81]

/-- Claim C5: for every ranked result set (whose matches are pairwise
distinct values, as guaranteed by the data model: identifiers are unique
within a partition) and every `max_results`, the selection has length
exactly `min max_results results.length` — the backfill step keeps the
selection from being smaller than the available data allows. -/
theorem SearchSystem.select_diverse_results_length
    (results : List SearchSystem.SMatch) (k : Nat) (hnd : results.Nodup) :
    (SearchSystem.select_diverse_results results k).length
      = min k results.length := by
  cases results with
  | nil => simp [SearchSystem.select_diverse_results]
  | cons b rest =>
    obtain ⟨t, ht, hsub⟩ := SearchSystem.diversityPass_cons b rest k
    have hS : (b :: t).Sublist (b :: rest) := hsub.cons₂ b
    have hslen : (b :: t).length ≤ (b :: rest).length := hS.length_le
    rw [SearchSystem.select_cons_def, ht]
    by_cases hlt : (b :: t).length < k
    · rw [if_pos hlt, List.length_take, List.length_append, List.length_take,
        SearchSystem.length_filter_notMem hS hnd]
      simp only [List.length_cons] at *
      omega
    · rw [if_neg hlt, List.length_take]
      simp only [List.length_cons] at *
      omega

/-- Witness for C5 at a concrete pairwise-distinct ranked result set. -/
theorem SearchSystem.select_diverse_results_length_witness :
    ([SearchSystem.sc81, SearchSystem.sc80, SearchSystem.sc79] :
        List SearchSystem.SMatch).Nodup
    ∧ (SearchSystem.select_diverse_results
        [SearchSystem.sc81, SearchSystem.sc80, SearchSystem.sc79] 2).length
        = min 2 ([SearchSystem.sc81, SearchSystem.sc80, SearchSystem.sc79] :
            List SearchSystem.SMatch).length :=
  ⟨by decide, SearchSystem.select_diverse_results_length _ 2 (by decide)⟩

/-- Claim C6: for every non-empty ranked result set and every
`max_results ≥ 1`, the best match `results[0]` is the first element of the
selection, in particular a member of it. -/
theorem SearchSystem.select_best_first
    (b : SearchSystem.SMatch) (rest : List SearchSystem.SMatch) (k : Nat)
    (hk : 1 ≤ k) :
    (SearchSystem.select_diverse_results (b :: rest) k).head? = some b
    ∧ b ∈ SearchSystem.select_diverse_results (b :: rest) k := by
  obtain ⟨t, ht, -⟩ := SearchSystem.diversityPass_cons b rest k
  obtain ⟨k', rfl⟩ : ∃ k', k = k' + 1 := ⟨k - 1, by omega⟩
  rw [SearchSystem.select_cons_def, ht]
  constructor
  · split
    · rw [List.cons_append, List.take_succ_cons]; rfl
    · rw [List.take_succ_cons]; rfl
  · split
    · rw [List.cons_append, List.take_succ_cons]
      exact List.mem_cons_self b _
    · rw [List.take_succ_cons]
      exact List.mem_cons_self b _

/-- Witness for C6 at a concrete non-empty result set and `max_results = 1`. -/
theorem SearchSystem.select_best_first_witness :
    1 ≤ 1
    ∧ ((SearchSystem.select_diverse_results [SearchSystem.sc81] 1).head?
          = some SearchSystem.sc81
       ∧ SearchSystem.sc81 ∈ SearchSystem.select_diverse_results
          [SearchSystem.sc81] 1) :=
  ⟨by decide, SearchSystem.select_best_first SearchSystem.sc81 [] 1 (by decide)⟩

/-- Claim C7: in the diversity-pass portion of the selection (before
backfill) no partition contributes more than 2 entries: each candidate is
added only while its namespace has contributed fewer than 2 selections. -/
theorem SearchSystem.diversityPass_partition_cap
    (results : List SearchSystem.SMatch) (k : Nat) (n : String) :
    ((SearchSystem.diversityPass results k).filter
        (fun m => decide (m.ns = n))).length ≤ 2 := by
  cases results with
  | nil => simp [SearchSystem.diversityPass]
  | cons b rest =>
    rw [SearchSystem.diversityPass_cons_def]
    refine SearchSystem.diversityLoop_cap k _ [b] (SearchSystem.initCounts b.ns) ?_ ?_ n
    · intro m
      unfold SearchSystem.initCounts
      by_cases hm : m = b.ns
      · rw [if_pos hm]
        have hd : decide (b.ns = m) = true := decide_eq_true hm.symm
        simp [List.filter_cons, hd]
      · rw [if_neg hm]
        have hd : decide (b.ns = m) = false :=
          decide_eq_false (fun h => hm h.symm)
        simp [List.filter_cons, hd]
    · intro m
      unfold SearchSystem.initCounts
      split <;> omega

/-- Claim C10: with `max_results = 0` the selection is always empty — the
final truncation `selected[:max_results]` drops even the unconditionally
added best match, so the best-always-included anchor only holds for
`max_results ≥ 1`. -/
theorem SearchSystem.select_diverse_results_zero
    (results : List SearchSystem.SMatch) :
    SearchSystem.select_diverse_results results 0 = [] := by
  cases results with
  | nil => rfl
  | cons b rest =>
    rw [SearchSystem.select_cons_def]
    exact List.take_zero _

/-- Counterexample to claim C8: a NaN raw score is not treated as 0.0.
The aggregation loop computes `weighted_score = NaN * 1.2 = NaN`, and the
classifier's verdict for a result set headed by that match carries a NaN
score (`none`), contradicting "the classifier's verdict contains no NaN". -/
theorem SearchSystem.nan_not_treated_as_zero_cex :
    (SearchSystem.mkResultN "faq" ⟨12/10, 3, "FAQ"⟩ SearchSystem.nanRaw).weighted_score
        = none
    ∧ (SearchSystem.calcConfidenceN
        [SearchSystem.mkResultN "faq" ⟨12/10, 3, "FAQ"⟩ SearchSystem.nanRaw]).2
        = none
    ∧ (SearchSystem.calcConfidenceN
        [SearchSystem.mkResultN "faq" ⟨12/10, 3, "FAQ"⟩ SearchSystem.nanRaw]).2
        ≠ some 0 :=
  ⟨rfl, rfl, fun h => Option.noConfusion h⟩

/-- Claim C8 amended: the code performs no NaN handling.  A NaN raw score
propagates into `weighted_score` (NaN * weight = NaN), and whenever the
top-ranked result's `weighted_score` is NaN the classifier returns level
`very_low` (every threshold comparison against NaN is false) with score
NaN — the verdict does contain NaN and the score is not replaced by 0.0. -/
theorem SearchSystem.nan_score_propagates
    (m : SearchSystem.NMatch) (rest : List SearchSystem.NMatch)
    (hm : m.weighted_score = none) :
    SearchSystem.calcConfidenceN (m :: rest) = ("very_low", none) := by
  unfold SearchSystem.calcConfidenceN
  simp [hm, SearchSystem.fGe, SearchSystem.fStdLtTenth]

/-- Witness for the amended C8 at a concrete NaN match. -/
theorem SearchSystem.nan_score_propagates_witness :
    SearchSystem.calcConfidenceN
        [SearchSystem.mkResultN "faq" ⟨12/10, 3, "FAQ"⟩ SearchSystem.nanRaw]
      = ("very_low", none) :=
  SearchSystem.nan_score_propagates _ [] rfl

/-- Counterexample to claim C9: when the embedding call fails, the
orchestrator does NOT return the fixed "no information found" response —
`create_query_embedding` re-raises and `search_and_answer` calls it with no
surrounding `try`, so the exception propagates to the caller (only the
interactive CLI loop catches it). -/
theorem SearchSystem.embedding_failure_raises_cex :
    SearchSystem.search_and_answer (fun _ => Except.error ())
      (fun _ _ _ => Except.ok []) (fun _ _ _ => "")
      SearchSystem.namespace_configs "질문"
      = Except.error () := rfl

/-- Claim C9 amended: when the embedding succeeds but every partition's
similarity search fails (each failing partition contributing zero matches),
the orchestrator does not raise: it returns the fixed "no information
found" response with confidence level `none`, confidence score 0 and an
empty result list.  (When the embedding call itself fails, the exception
propagates instead — see the counterexample.) -/
theorem SearchSystem.all_partitions_fail_not_found
    (emb : List ℚ)
    (synthesize : String → List SearchSystem.SMatch → String → String)
    (configs : List (String × SearchSystem.NamespaceConfig)) (query : String) :
    SearchSystem.search_and_answer (fun _ => Except.ok emb)
      (fun _ _ _ => Except.error ()) synthesize configs query
      = Except.ok (SearchSystem.notFoundResponse query) := by
  have hg : SearchSystem.gatherResults configs (fun _ _ => Except.error ()) = [] := by
    simp [SearchSystem.gatherResults]
  unfold SearchSystem.search_and_answer
  simp [SearchSystem.search_all_namespaces, hg]
